import Mathlib

/-!
Shallow embedding of the Windows CNG message-digest layer of this
repository (contrib/win32/win32compat/cng_digest.c): the algorithm
registry (table `digests`, lookups `ssh_digest_by_alg` and
`ssh_digest_alg_by_name`), the digest-context lifecycle
(`ssh_digest_start`, `ssh_digest_update`, `ssh_digest_final`,
`ssh_digest_copy_state`), and the one-shot wrapper `ssh_digest_memory`.

The BCrypt provider is an external collaborator: the actual hashing is
modelled by an abstract function `hash : Int → List Nat → List Nat`
passed to the operations that finalize, and provider acquisition,
update and duplication are modelled as always succeeding (the ideal
provider).  Machine bytes are `Nat`s, byte buffers are `List Nat`;
writing `n` bytes into a buffer replaces its first `n` elements and
leaves the rest untouched.
-/

namespace CngDigest

/-- Modelled from the spec: `digest.h` is not part of this repository.
The spec says algorithm ids are small integers from a closed
enumeration, and the source comment says the table is "Indexed
directly by algorithm number", which fixes the six ids and the bound
`SSH_DIGEST_MAX`. -/
def SSH_DIGEST_MD5 : Int := 0

/-- Modelled from the spec: see `SSH_DIGEST_MD5`. -/
def SSH_DIGEST_RIPEMD160 : Int := 1

/-- Modelled from the spec: see `SSH_DIGEST_MD5`. -/
def SSH_DIGEST_SHA1 : Int := 2

/-- Modelled from the spec: see `SSH_DIGEST_MD5`. -/
def SSH_DIGEST_SHA256 : Int := 3

/-- Modelled from the spec: see `SSH_DIGEST_MD5`. -/
def SSH_DIGEST_SHA384 : Int := 4

/-- Modelled from the spec: see `SSH_DIGEST_MD5`. -/
def SSH_DIGEST_SHA512 : Int := 5

/-- Modelled from the spec: see `SSH_DIGEST_MD5`.  One past the last
algorithm id. -/
def SSH_DIGEST_MAX : Int := 6

/-- Modelled from the spec: `ssherr.h` is not part of this repository.
The spec requires validation failures (InvalidArgument) to be reported
distinctly from provider failures; the concrete values are OpenSSH's. -/
def SSH_ERR_INVALID_ARGUMENT : Int := -10

/-- Modelled from the spec: see `SSH_ERR_INVALID_ARGUMENT`. -/
def SSH_ERR_LIBCRYPTO_ERROR : Int := -22

/-- `UINT_MAX` for the 32-bit `unsigned int` of the Windows targets this
file compiles for. -/
def UINT_MAX : Nat := 2 ^ 32 - 1

/-- BCrypt provider algorithm identifier (Windows header constant,
external collaborator): the wide string naming the algorithm. -/
def BCRYPT_MD5_ALGORITHM : String := "MD5"

/-- BCrypt provider algorithm identifier, see `BCRYPT_MD5_ALGORITHM`. -/
def BCRYPT_SHA1_ALGORITHM : String := "SHA1"

/-- BCrypt provider algorithm identifier, see `BCRYPT_MD5_ALGORITHM`. -/
def BCRYPT_SHA256_ALGORITHM : String := "SHA256"

/-- BCrypt provider algorithm identifier, see `BCRYPT_MD5_ALGORITHM`. -/
def BCRYPT_SHA384_ALGORITHM : String := "SHA384"

/-- BCrypt provider algorithm identifier, see `BCRYPT_MD5_ALGORITHM`. -/
def BCRYPT_SHA512_ALGORITHM : String := "SHA512"

/-- `struct ssh_digest`: one registry entry.  `name` and
`cng_alg_name` are `const char *` and `const wchar_t *` in C, `NULL`
modelled as `none`. -/
structure ssh_digest where
  id : Int
  name : Option String
  digest_len : Nat
  cng_alg_name : Option String
deriving DecidableEq

/-- The registry table `digests[]`, including the RIPEMD160 entry whose
provider name is `NULL` (not supported) and the terminating sentinel. -/
def digests : List ssh_digest :=
  [ ⟨SSH_DIGEST_MD5, some "MD5", 16, some BCRYPT_MD5_ALGORITHM⟩,
    ⟨SSH_DIGEST_RIPEMD160, some "RIPEMD160", 20, none⟩,
    ⟨SSH_DIGEST_SHA1, some "SHA1", 20, some BCRYPT_SHA1_ALGORITHM⟩,
    ⟨SSH_DIGEST_SHA256, some "SHA256", 32, some BCRYPT_SHA256_ALGORITHM⟩,
    ⟨SSH_DIGEST_SHA384, some "SHA384", 48, some BCRYPT_SHA384_ALGORITHM⟩,
    ⟨SSH_DIGEST_SHA512, some "SHA512", 64, some BCRYPT_SHA512_ALGORITHM⟩,
    ⟨-1, none, 0, none⟩ ]

/-- Array indexing `digests[i]` (total, with an out-of-range default
that is never reached by the bounds-checked C accesses). -/
def digestsAt (i : Nat) : ssh_digest :=
  digests.getD i ⟨-1, none, 0, none⟩

/-- `ssh_digest_by_alg`, generic in the table so that the fail-closed
behaviour on a corrupted table slot can be stated: the range check,
the self-index sanity check, and the provider-name presence check, in
the source's order. -/
def ssh_digest_by_alg_t (t : Nat → ssh_digest) (alg : Int) : Option ssh_digest :=
  if alg < 0 ∨ SSH_DIGEST_MAX ≤ alg then none
  else if (t alg.toNat).id ≠ alg then none
  else if (t alg.toNat).cng_alg_name = none then none
  else some (t alg.toNat)

/-- `ssh_digest_by_alg` on the actual table. -/
def ssh_digest_by_alg (alg : Int) : Option ssh_digest :=
  ssh_digest_by_alg_t digestsAt alg

/-- ASCII lower-casing of one character, as `_stricmp` does in the C
locale. -/
def lowerAscii (c : Char) : Char :=
  if 'A' ≤ c ∧ c ≤ 'Z' then Char.ofNat (c.toNat + 32) else c

/-- The lower-cased character sequence of a string. -/
def lowerStr (s : String) : List Char :=
  s.data.map lowerAscii

/-- Whether `_stricmp(a, b) == 0`: equality up to ASCII case. -/
def stricmpEq (a b : String) : Bool :=
  lowerStr a == lowerStr b

/-- The scan loop of `ssh_digest_alg_by_name`: stops at the first entry
whose id is `-1` (the sentinel), otherwise returns the id of the first
entry whose name matches case-insensitively.  The nil case is
unreachable on the sentinel-terminated table. -/
def alg_by_name_scan (s : String) : List ssh_digest → Int
  | [] => -1
  | d :: rest =>
      if d.id = -1 then -1
      else if stricmpEq s (d.name.getD "") then d.id
      else alg_by_name_scan s rest

/-- `ssh_digest_alg_by_name`. -/
def ssh_digest_alg_by_name (name : String) : Int :=
  alg_by_name_scan name digests

/-- `ssh_digest_alg_name`. -/
def ssh_digest_alg_name (alg : Int) : Option String :=
  match ssh_digest_by_alg alg with
  | none => none
  | some d => d.name

/-- `ssh_digest_bytes`. -/
def ssh_digest_bytes (alg : Int) : Nat :=
  match ssh_digest_by_alg alg with
  | none => 0
  | some d => d.digest_len

/-- `struct ssh_digest_ctx`.  The provider algorithm handle is modelled
by the provider algorithm name it was opened with; the provider hash
object is modelled by the byte sequence accumulated into it. -/
structure ssh_digest_ctx where
  alg : Int
  cng_alg_handle : Option String
  hash_handle : List Nat
deriving DecidableEq

/-- Truncate or zero-pad a byte list to exactly `n` bytes. -/
def truncPad (n : Nat) (l : List Nat) : List Nat :=
  l.take n ++ List.replicate (n - l.length) 0

/-- Model of `BCryptFinishHash(ctx->hash_handle, d, cb, 0)`: the
provider writes exactly `cb` bytes of the digest of the accumulated
state into the front of `d` (provider contract: the finalize operation
writes exactly the requested fixed length). -/
def bcryptFinishWrite (hash : Int → List Nat → List Nat)
    (ctx : ssh_digest_ctx) (cb : Nat) (d : List Nat) : List Nat :=
  truncPad cb (hash ctx.alg ctx.hash_handle) ++ d.drop cb

/-- `ssh_digest_start`: fails exactly when the registry lookup fails
(allocation and provider acquisition are modelled as succeeding);
otherwise yields a context bound to `alg`, holding a provider
algorithm handle opened with the entry's provider name and a fresh
(empty) provider hash object. -/
def ssh_digest_start (alg : Int) : Option ssh_digest_ctx :=
  match ssh_digest_by_alg alg with
  | none => none
  | some dg => some ⟨alg, dg.cng_alg_name, []⟩

/-- `ssh_digest_update`: the C passes the `size_t` length `mlen` as
`BCryptHashData`'s 32-bit `ULONG cbInput`, so on the 64-bit target
(the same one on which the `dlen > UINT_MAX` checks are meaningful)
the count wraps modulo `2 ^ 32` and the provider consumes only that
many leading bytes of the message; the call succeeds (ideal
provider) and the consumed bytes are appended to the hash object's
accumulated state. -/
def ssh_digest_update (ctx : ssh_digest_ctx) (m : List Nat) : Int × ssh_digest_ctx :=
  (0, { ctx with hash_handle := ctx.hash_handle ++ m.take (m.length % 2 ^ 32) })

/-- `ssh_digest_copy_state`: algorithm mismatch is rejected before
anything is touched; otherwise `BCryptDuplicateHash` replaces the
destination's hash object with a duplicate of the source's (ideal
provider: duplication succeeds).  Returns the updated pair. -/
def ssh_digest_copy_state (fromCtx toCtx : ssh_digest_ctx) :
    Int × ssh_digest_ctx × ssh_digest_ctx :=
  if fromCtx.alg ≠ toCtx.alg then (SSH_ERR_INVALID_ARGUMENT, fromCtx, toCtx)
  else (0, fromCtx, { toCtx with hash_handle := fromCtx.hash_handle })

/-- `ssh_digest_final`: looks the algorithm up again from the context
(the C code dereferences the result unconditionally; on any context
made by `ssh_digest_start` the lookup succeeds, so the `getD` default
is never reached there), rejects `dlen > UINT_MAX`, rejects
`dlen < digest_len` (no truncation), else has the provider write
exactly `digest_len` bytes.  Returns the result code and the buffer
contents after the call. -/
def ssh_digest_final (hash : Int → List Nat → List Nat)
    (ctx : ssh_digest_ctx) (d : List Nat) (dlen : Nat) : Int × List Nat :=
  let digest := (ssh_digest_by_alg ctx.alg).getD ⟨-1, none, 0, none⟩
  if UINT_MAX < dlen then (SSH_ERR_INVALID_ARGUMENT, d)
  else if dlen < digest.digest_len then (SSH_ERR_INVALID_ARGUMENT, d)
  else (0, bcryptFinishWrite hash ctx digest.digest_len d)

/-- `ssh_digest_memory`, transcribed with its declaration-order side
effect: `ssh_digest_start` runs before any validation.  The result is
the return code, the buffer contents after the call, and the number of
contexts this call created but never released (each such context holds
a provider algorithm handle and a provider hash object).  The C code
calls `ssh_digest_free` only on the full-success path; every failure
path after the `ssh_digest_start` initializer returns without freeing.
The `(some, none)` case is unreachable: under the ideal provider,
`ssh_digest_start` succeeds exactly when the lookup does (in C that
path would dereference a null context). -/
def ssh_digest_memory (hash : Int → List Nat → List Nat)
    (alg : Int) (m : List Nat) (d : List Nat) (dlen : Nat) :
    Int × List Nat × Nat :=
  match ssh_digest_by_alg alg, ssh_digest_start alg with
  | none, _ => (SSH_ERR_INVALID_ARGUMENT, d, 0)
  | some dg, some ctx =>
      if UINT_MAX < dlen then (SSH_ERR_INVALID_ARGUMENT, d, 1)
      else if dlen < dg.digest_len then (SSH_ERR_INVALID_ARGUMENT, d, 1)
      else
        match ssh_digest_update ctx m with
        | (r1, ctx1) =>
            if r1 ≠ 0 then (-1, d, 1)
            else
              match ssh_digest_final hash ctx1 d dlen with
              | (r2, d1) =>
                  if r2 ≠ 0 then (-1, d1, 1)
                  else (0, d1, 0)
  | some _, none => (-1, d, 0)

/-- The spec's streaming sequence for chunking invariance, following
the spec's words: `start(alg)`, `update(M[0:k])`, `update(M[k:])`,
`final` with capacity `dlen`; `none` when `start` fails, otherwise the
first failing step's code, or the final's code with the written
buffer. -/
def spec_streaming_digest (hash : Int → List Nat → List Nat)
    (alg : Int) (M d : List Nat) (k dlen : Nat) : Option (Int × List Nat) :=
  match ssh_digest_start alg with
  | none => none
  | some c0 =>
      match ssh_digest_update c0 (M.take k) with
      | (r1, c1) =>
          if r1 ≠ 0 then some (r1, d)
          else
            match ssh_digest_update c1 (M.drop k) with
            | (r2, c2) =>
                if r2 ≠ 0 then some (r2, d)
                else some (ssh_digest_final hash c2 d dlen)

/-- A provider hash function that only records whether its input was
empty: enough to separate the two sides of the chunking-invariance
counterexample. -/
def cexHash : Int → List Nat → List Nat :=
  fun _ m => List.replicate 32 (min m.length 1)

/-- A message of exactly `2 ^ 32` bytes, the smallest length at which
the `ULONG` wrap in `ssh_digest_update` fires. -/
def cexM : List Nat :=
  List.replicate (2 ^ 32) 7

/-! Helper lemmas -/

theorem ssh_digest_update_full (ctx : ssh_digest_ctx) (m : List Nat)
    (hm : m.length < 2 ^ 32) :
    ssh_digest_update ctx m = (0, { ctx with hash_handle := ctx.hash_handle ++ m }) := by
  unfold ssh_digest_update
  rw [Nat.mod_eq_of_lt hm, List.take_length]

theorem truncPad_length (n : Nat) (l : List Nat) : (truncPad n l).length = n := by
  simp [truncPad]
  omega

theorem digestsAt_digest_len_le (i : Nat) : (digestsAt i).digest_len ≤ 64 := by
  match i with
  | 0 | 1 | 2 | 3 | 4 | 5 | 6 => decide
  | n + 7 => simp [digestsAt, digests]

theorem ssh_digest_by_alg_eq_digestsAt {alg : Int} {dg : ssh_digest}
    (h : ssh_digest_by_alg alg = some dg) : dg = digestsAt alg.toNat := by
  unfold ssh_digest_by_alg ssh_digest_by_alg_t at h
  split_ifs at h
  exact (Option.some_injective _ h).symm

theorem ssh_digest_by_alg_digest_len_le {alg : Int} {dg : ssh_digest}
    (h : ssh_digest_by_alg alg = some dg) : dg.digest_len ≤ 64 := by
  rw [ssh_digest_by_alg_eq_digestsAt h]
  exact digestsAt_digest_len_le _

theorem ssh_digest_start_of_by_alg {alg : Int} {dg : ssh_digest}
    (h : ssh_digest_by_alg alg = some dg) :
    ssh_digest_start alg = some ⟨alg, dg.cng_alg_name, []⟩ := by
  simp [ssh_digest_start, h]

/-! Claim theorems -/

/-- C5: if the two contexts' algorithms differ, `ssh_digest_copy_state`
returns `SSH_ERR_INVALID_ARGUMENT` and returns both contexts exactly as
they were: no field of either is modified on the mismatch path. -/
theorem claim_C5_copy_state_mismatch (a b : ssh_digest_ctx) (h : a.alg ≠ b.alg) :
    ssh_digest_copy_state a b = (SSH_ERR_INVALID_ARGUMENT, a, b) := by
  simp [ssh_digest_copy_state, h]

theorem claim_C5_copy_state_mismatch_witness :
    ssh_digest_copy_state ⟨SSH_DIGEST_MD5, some "MD5", []⟩ ⟨SSH_DIGEST_SHA1, some "SHA1", []⟩ =
      (SSH_ERR_INVALID_ARGUMENT, ⟨SSH_DIGEST_MD5, some "MD5", []⟩, ⟨SSH_DIGEST_SHA1, some "SHA1", []⟩) :=
  claim_C5_copy_state_mismatch _ _ (by decide)

/-- C10: a successful `ssh_digest_copy_state` (same algorithm) modifies
only the destination's provider hash handle, which becomes a duplicate
of the source's; the destination's algorithm id and provider algorithm
handle, and the whole source context, are unchanged. -/
theorem claim_C10_copy_state_frame (a b : ssh_digest_ctx) (h : a.alg = b.alg) :
    ssh_digest_copy_state a b =
      (0, a, { alg := b.alg, cng_alg_handle := b.cng_alg_handle, hash_handle := a.hash_handle }) := by
  simp [ssh_digest_copy_state, h]

theorem claim_C10_copy_state_frame_witness :
    ssh_digest_copy_state ⟨SSH_DIGEST_SHA256, some "SHA256", [1, 2]⟩ ⟨SSH_DIGEST_SHA256, some "SHA256", [7]⟩ =
      (0, ⟨SSH_DIGEST_SHA256, some "SHA256", [1, 2]⟩, ⟨SSH_DIGEST_SHA256, some "SHA256", [1, 2]⟩) :=
  claim_C10_copy_state_frame _ _ (by decide)

/-- C8: `ssh_digest_bytes` returns 0 on every id on which
`ssh_digest_by_alg` fails, and the fixed constant lengths 16, 20, 32,
48 and 64 for MD5, SHA1, SHA256, SHA384 and SHA512. -/
theorem claim_C8_digest_bytes :
    (∀ alg : Int, ssh_digest_by_alg alg = none → ssh_digest_bytes alg = 0)
    ∧ ssh_digest_bytes SSH_DIGEST_MD5 = 16
    ∧ ssh_digest_bytes SSH_DIGEST_SHA1 = 20
    ∧ ssh_digest_bytes SSH_DIGEST_SHA256 = 32
    ∧ ssh_digest_bytes SSH_DIGEST_SHA384 = 48
    ∧ ssh_digest_bytes SSH_DIGEST_SHA512 = 64 := by
  refine ⟨?_, by decide, by decide, by decide, by decide, by decide⟩
  intro alg h
  simp [ssh_digest_bytes, h]

theorem claim_C8_digest_bytes_witness :
    ssh_digest_bytes SSH_DIGEST_RIPEMD160 = 0 :=
  claim_C8_digest_bytes.1 SSH_DIGEST_RIPEMD160 (by decide)

/-- C3 (failing input): `ssh_digest_memory` does not validate the
capacity before doing work, and a failure is not leak-free.  At
`alg = SSH_DIGEST_SHA256`, empty message and `dlen = 0`, the call
returns `SSH_ERR_INVALID_ARGUMENT`, but the context it created through
its `ssh_digest_start` initializer — holding a provider algorithm
handle and a provider hash object — is never released (leak count 1):
the C code frees the context only on the full-success path. -/
theorem claim_C3_oneshot_leak :
    ssh_digest_memory (fun _ _ => []) SSH_DIGEST_SHA256 [] [] 0 =
      (SSH_ERR_INVALID_ARGUMENT, [], 1) := by
  decide

/-- C2 (counterexample): the name lookup does not treat RIPEMD160 as
unknown: `ssh_digest_alg_by_name "RIPEMD160"` returns the RIPEMD160 id
(1), not the not-found value `-1`, because the scan never consults the
provider reference. -/
theorem claim_C2_name_lookup_counterexample :
    ssh_digest_alg_by_name "RIPEMD160" = SSH_DIGEST_RIPEMD160
    ∧ SSH_DIGEST_RIPEMD160 ≠ -1 := by
  constructor
  · decide
  · decide

/-- C2 (amended): `ssh_digest_by_alg` applied to the RIPEMD160 id
returns not-found, while `ssh_digest_alg_by_name` applied to any
string equal to "RIPEMD160" up to ASCII case returns the RIPEMD160 id
(the name scan matches the table entry without checking its provider
reference). -/
theorem claim_C2_ripemd160_lookups :
    ssh_digest_by_alg SSH_DIGEST_RIPEMD160 = none
    ∧ (∀ s : String, lowerStr s = lowerStr "RIPEMD160" →
        ssh_digest_alg_by_name s = SSH_DIGEST_RIPEMD160) := by
  refine ⟨by decide, ?_⟩
  intro s hs
  simp only [ssh_digest_alg_by_name, digests, alg_by_name_scan, stricmpEq, hs]
  decide

theorem claim_C2_ripemd160_lookups_witness :
    ssh_digest_alg_by_name "ripemd160" = SSH_DIGEST_RIPEMD160 :=
  claim_C2_ripemd160_lookups.2 "ripemd160" (by decide)

/-- C4: on a live context (one whose algorithm the registry resolves),
`ssh_digest_final` with a capacity below the algorithm's digest length
returns `SSH_ERR_INVALID_ARGUMENT` with the buffer untouched; on
success it writes exactly `digest_len` bytes at the front of the
buffer, never more than the requested capacity, and leaves the rest of
the buffer untouched. -/
theorem claim_C4_final_capacity (hash : Int → List Nat → List Nat)
    (ctx : ssh_digest_ctx) (dg : ssh_digest)
    (hlive : ssh_digest_by_alg ctx.alg = some dg) (d : List Nat) (dlen : Nat) :
    (dlen < dg.digest_len →
      ssh_digest_final hash ctx d dlen = (SSH_ERR_INVALID_ARGUMENT, d))
    ∧ ((ssh_digest_final hash ctx d dlen).1 = 0 →
        (ssh_digest_final hash ctx d dlen).2 =
          truncPad dg.digest_len (hash ctx.alg ctx.hash_handle) ++ d.drop dg.digest_len
        ∧ (truncPad dg.digest_len (hash ctx.alg ctx.hash_handle)).length = dg.digest_len
        ∧ dg.digest_len ≤ dlen) := by
  unfold ssh_digest_final bcryptFinishWrite
  rw [hlive]
  simp only [Option.getD_some]
  by_cases h1 : UINT_MAX < dlen
  · rw [if_pos h1]
    refine ⟨fun _ => rfl, fun hzero => ?_⟩
    simp [SSH_ERR_INVALID_ARGUMENT] at hzero
  · rw [if_neg h1]
    by_cases h2 : dlen < dg.digest_len
    · rw [if_pos h2]
      refine ⟨fun _ => rfl, fun hzero => ?_⟩
      simp [SSH_ERR_INVALID_ARGUMENT] at hzero
    · rw [if_neg h2]
      exact ⟨fun hsm => absurd hsm h2, fun _ => ⟨rfl, truncPad_length _ _, by omega⟩⟩

theorem claim_C4_final_capacity_witness :
    ssh_digest_final (fun _ _ => []) ⟨SSH_DIGEST_SHA256, some "SHA256", []⟩ (List.replicate 40 7) 5 =
      (SSH_ERR_INVALID_ARGUMENT, List.replicate 40 7) :=
  (claim_C4_final_capacity (fun _ _ => []) ⟨SSH_DIGEST_SHA256, some "SHA256", []⟩
    (digestsAt 3) (by decide) (List.replicate 40 7) 5).1 (by decide)

/-- A deliberately corrupted table for exercising the fail-closed
self-index gate: every slot stores the SHA512 descriptor, so slot 3's
stored id (5) disagrees with its index. -/
def corruptTable : Nat → ssh_digest :=
  fun _ => ⟨SSH_DIGEST_SHA512, some "SHA512", 64, some BCRYPT_SHA512_ALGORITHM⟩

/-- C6: `ssh_digest_by_alg` returns a descriptor only when all three
gates hold — the id is in `[0, SSH_DIGEST_MAX)`, the slot at that index
stores the same id (self-index invariant), and the slot's provider
reference is present; any table slot failing a gate yields not-found
(fail closed), and on the gates all holding the result is exactly that
slot.  The last conjunct ties the generic form to the source's table. -/
theorem claim_C6_by_alg_gates (t : Nat → ssh_digest) (alg : Int) :
    (alg < 0 ∨ SSH_DIGEST_MAX ≤ alg → ssh_digest_by_alg_t t alg = none)
    ∧ ((t alg.toNat).id ≠ alg → ssh_digest_by_alg_t t alg = none)
    ∧ ((t alg.toNat).cng_alg_name = none → ssh_digest_by_alg_t t alg = none)
    ∧ (0 ≤ alg → alg < SSH_DIGEST_MAX → (t alg.toNat).id = alg →
        (t alg.toNat).cng_alg_name ≠ none →
        ssh_digest_by_alg_t t alg = some (t alg.toNat))
    ∧ ssh_digest_by_alg alg = ssh_digest_by_alg_t digestsAt alg := by
  refine ⟨?_, ?_, ?_, ?_, rfl⟩ <;>
    · intros
      unfold ssh_digest_by_alg_t
      split_ifs <;> first | rfl | tauto | omega

theorem claim_C6_by_alg_gates_witness :
    ssh_digest_by_alg_t corruptTable 3 = none
    ∧ ssh_digest_by_alg_t digestsAt 3 = some (digestsAt 3) :=
  ⟨(claim_C6_by_alg_gates corruptTable 3).2.1 (by decide),
   (claim_C6_by_alg_gates digestsAt 3).2.2.2.1 (by decide) (by decide) (by decide) (by decide)⟩

/-- C9: `ssh_digest_final` rejects any capacity strictly greater than
`UINT_MAX` with `SSH_ERR_INVALID_ARGUMENT` before contacting the
provider — the buffer is untouched and the result does not depend on
the hash function — and `ssh_digest_memory` applies the same limit on
any supported algorithm (its context, created before the check, is
leaked there, hence the count 1). -/
theorem claim_C9_uint_max_limit (hash : Int → List Nat → List Nat)
    (ctx : ssh_digest_ctx) (alg : Int) (dg : ssh_digest)
    (m d : List Nat) (dlen : Nat) (hbig : UINT_MAX < dlen) :
    ssh_digest_final hash ctx d dlen = (SSH_ERR_INVALID_ARGUMENT, d)
    ∧ (ssh_digest_by_alg alg = some dg →
        ssh_digest_memory hash alg m d dlen = (SSH_ERR_INVALID_ARGUMENT, d, 1)) := by
  constructor
  · unfold ssh_digest_final
    rw [if_pos hbig]
  · intro h
    unfold ssh_digest_memory
    rw [h, ssh_digest_start_of_by_alg h]
    simp only [if_pos hbig]

theorem claim_C9_uint_max_limit_witness :
    ssh_digest_final (fun _ _ => []) ⟨SSH_DIGEST_SHA256, some "SHA256", []⟩ [] (2 ^ 32) =
      (SSH_ERR_INVALID_ARGUMENT, [])
    ∧ ssh_digest_memory (fun _ _ => []) SSH_DIGEST_SHA256 [] [] (2 ^ 32) =
      (SSH_ERR_INVALID_ARGUMENT, [], 1) :=
  have h := claim_C9_uint_max_limit (fun _ _ => []) ⟨SSH_DIGEST_SHA256, some "SHA256", []⟩
    SSH_DIGEST_SHA256 (digestsAt 3) [] [] (2 ^ 32) (by decide)
  ⟨h.1, h.2 (by decide)⟩

theorem scan_case_congr {s1 s2 : String} (h : lowerStr s1 = lowerStr s2) :
    ∀ L : List ssh_digest, alg_by_name_scan s1 L = alg_by_name_scan s2 L := by
  intro L
  induction L with
  | nil => rfl
  | cons e rest ih => simp only [alg_by_name_scan, stricmpEq, h, ih]

theorem scan_sentinel_stop (s : String) (L1 L2 : List ssh_digest) (e : ssh_digest)
    (he : e.id = -1) :
    alg_by_name_scan s (L1 ++ e :: L2) = alg_by_name_scan s (L1 ++ [e]) := by
  induction L1 with
  | nil => simp [alg_by_name_scan, he]
  | cons d rest ih => simp only [List.cons_append, alg_by_name_scan, List.append_eq, ih]

theorem scan_no_match (s : String) :
    ∀ L : List ssh_digest, (∀ e ∈ L, stricmpEq s (e.name.getD "") = false) →
      alg_by_name_scan s L = -1 := by
  intro L
  induction L with
  | nil => intro _; rfl
  | cons d rest ih =>
      intro h
      have hd : stricmpEq s (d.name.getD "") = false := h d (by simp)
      have ih2 := ih (fun e he => h e (by simp [he]))
      simp [alg_by_name_scan, hd, ih2]

theorem scan_first_match (s : String) :
    ∀ (L1 : List ssh_digest) (e : ssh_digest) (L2 : List ssh_digest),
      (∀ e2 ∈ L1, e2.id ≠ -1 ∧ stricmpEq s (e2.name.getD "") = false) →
      e.id ≠ -1 → stricmpEq s (e.name.getD "") = true →
      alg_by_name_scan s (L1 ++ e :: L2) = e.id := by
  intro L1
  induction L1 with
  | nil =>
      intro e L2 _ he hm
      simp [alg_by_name_scan, he, hm]
  | cons d rest ih =>
      intro e L2 h he hm
      have hd := h d (by simp)
      have hrest := ih e L2 (fun e2 h2 => h e2 (by simp [h2])) he hm
      simp [alg_by_name_scan, hd.1, hd.2, hrest]

/-- C7: `ssh_digest_alg_by_name` compares names up to ASCII case (two
names with the same lower-casing resolve identically, so "sha256",
"SHA256" and "Sha256" all give the SHA256 id); the scan stops at a
sentinel entry (id `-1`), so entries after one never influence the
result; it returns `-1` when no entry matches; and it returns the
first matching entry's id. -/
theorem claim_C7_name_scan :
    (∀ s1 s2 : String, lowerStr s1 = lowerStr s2 →
      ssh_digest_alg_by_name s1 = ssh_digest_alg_by_name s2)
    ∧ (∀ (s : String) (L1 L2 : List ssh_digest) (e : ssh_digest), e.id = -1 →
        alg_by_name_scan s (L1 ++ e :: L2) = alg_by_name_scan s (L1 ++ [e]))
    ∧ (∀ s : String, (∀ e ∈ digests, stricmpEq s (e.name.getD "") = false) →
        ssh_digest_alg_by_name s = -1)
    ∧ (∀ (s : String) (L1 : List ssh_digest) (e : ssh_digest) (L2 : List ssh_digest),
        (∀ e2 ∈ L1, e2.id ≠ -1 ∧ stricmpEq s (e2.name.getD "") = false) →
        e.id ≠ -1 → stricmpEq s (e.name.getD "") = true →
        alg_by_name_scan s (L1 ++ e :: L2) = e.id)
    ∧ ssh_digest_alg_by_name "sha256" = SSH_DIGEST_SHA256
    ∧ ssh_digest_alg_by_name "SHA256" = SSH_DIGEST_SHA256
    ∧ ssh_digest_alg_by_name "Sha256" = SSH_DIGEST_SHA256 := by
  refine ⟨?_, ?_, ?_, ?_, by decide, by decide, by decide⟩
  · intro s1 s2 h
    exact scan_case_congr h digests
  · intro s L1 L2 e he
    exact scan_sentinel_stop s L1 L2 e he
  · intro s h
    exact scan_no_match s digests h
  · intro s L1 e L2 h he hm
    exact scan_first_match s L1 e L2 h he hm

theorem claim_C7_name_scan_witness :
    ssh_digest_alg_by_name "sha384" = ssh_digest_alg_by_name "SHA384"
    ∧ ssh_digest_alg_by_name "nosuch" = -1 :=
  ⟨claim_C7_name_scan.1 "sha384" "SHA384" (by decide),
   claim_C7_name_scan.2.2.1 "nosuch" (by decide)⟩

/-- Helper: `ssh_digest_final` on a SHA256 context with capacity 32
always succeeds and writes the 32 digest bytes of the accumulated
state at the front of the buffer. -/
theorem ssh_digest_final_sha256 (hash : Int → List Nat → List Nat) (st d : List Nat) :
    ssh_digest_final hash ⟨SSH_DIGEST_SHA256, some BCRYPT_SHA256_ALGORITHM, st⟩ d 32 =
      (0, truncPad 32 (hash SSH_DIGEST_SHA256 st) ++ d.drop 32) := by
  have hby : ssh_digest_by_alg SSH_DIGEST_SHA256 = some (digestsAt 3) := by decide
  have hdl : (digestsAt 3).digest_len = 32 := by decide
  have hc1 : ¬ UINT_MAX < 32 := by decide
  unfold ssh_digest_final bcryptFinishWrite
  simp [hby, hdl, hc1]

/-- Helper: for any message of exactly `2 ^ 32` bytes, the one-shot
wraps the length to a `ULONG` count of 0, so the provider hashes the
empty accumulated state. -/
theorem cex_wrap_memory (X : List Nat) (hX : X.length = 2 ^ 32) :
    ssh_digest_memory cexHash SSH_DIGEST_SHA256 X (List.replicate 32 0) 32 =
      (0, List.replicate 32 0, 0) := by
  have hby : ssh_digest_by_alg SSH_DIGEST_SHA256 = some (digestsAt 3) := by decide
  have hst : ssh_digest_start SSH_DIGEST_SHA256 =
      some ⟨SSH_DIGEST_SHA256, some BCRYPT_SHA256_ALGORITHM, []⟩ := by decide
  have hdl : (digestsAt 3).digest_len = 32 := by decide
  have hc1 : ¬ UINT_MAX < 32 := by decide
  have hu0 : ssh_digest_update ⟨SSH_DIGEST_SHA256, some BCRYPT_SHA256_ALGORITHM, []⟩ X =
      (0, ⟨SSH_DIGEST_SHA256, some BCRYPT_SHA256_ALGORITHM, []⟩) := by
    unfold ssh_digest_update
    rw [hX, Nat.mod_self, List.take_zero]
    rfl
  unfold ssh_digest_memory
  rw [hby, hst]
  simp [hu0, ssh_digest_final_sha256, hdl, hc1]
  all_goals decide

/-- Helper: for any message of exactly `2 ^ 32` bytes and split point
1, both streaming chunks are below the `ULONG` wrap, so the provider
hashes the whole message. -/
theorem cex_wrap_streaming (X : List Nat) (hX : X.length = 2 ^ 32) :
    spec_streaming_digest cexHash SSH_DIGEST_SHA256 X (List.replicate 32 0) 1 32 =
      some (0, List.replicate 32 1) := by
  have hst : ssh_digest_start SSH_DIGEST_SHA256 =
      some ⟨SSH_DIGEST_SHA256, some BCRYPT_SHA256_ALGORITHM, []⟩ := by decide
  have htk : (X.take 1).length < 2 ^ 32 := by
    rw [List.length_take, hX]
    norm_num
  have hdk : (X.drop 1).length < 2 ^ 32 := by
    rw [List.length_drop, hX]
    norm_num
  have hu1 : ssh_digest_update ⟨SSH_DIGEST_SHA256, some BCRYPT_SHA256_ALGORITHM, []⟩
      (X.take 1) =
      (0, ⟨SSH_DIGEST_SHA256, some BCRYPT_SHA256_ALGORITHM, X.take 1⟩) := by
    have h := ssh_digest_update_full ⟨SSH_DIGEST_SHA256, some BCRYPT_SHA256_ALGORITHM, []⟩
      (X.take 1) htk
    simpa using h
  have hu2 : ssh_digest_update ⟨SSH_DIGEST_SHA256, some BCRYPT_SHA256_ALGORITHM, X.take 1⟩
      X.tail =
      (0, ⟨SSH_DIGEST_SHA256, some BCRYPT_SHA256_ALGORITHM, X⟩) := by
    have h := ssh_digest_update_full ⟨SSH_DIGEST_SHA256, some BCRYPT_SHA256_ALGORITHM, X.take 1⟩
      (X.drop 1) hdk
    rw [List.drop_one] at h
    rw [h, ← List.drop_one, List.take_append_drop]
  have hcx : cexHash SSH_DIGEST_SHA256 X = List.replicate 32 1 := by
    unfold cexHash
    rw [hX]
    norm_num
  unfold spec_streaming_digest
  rw [hst]
  simp [hu1, hu2, ssh_digest_final_sha256, hcx]
  all_goals decide

/-- C1 (counterexample): chunking invariance fails on the code for a
message of `2 ^ 32` bytes, capacity equal to SHA256 digest length
and split point `k = 1`.  The one-shot passes `mlen = 2 ^ 32` to the
provider, which wraps to a `ULONG` count of 0 and hashes nothing,
while the streaming side feeds `1` and `2 ^ 32 - 1` bytes, both below
the wrap, and hashes the whole message — so the two sides digest
different inputs and the output buffers differ. -/
theorem claim_C1_chunking_counterexample :
    ssh_digest_memory cexHash SSH_DIGEST_SHA256 cexM (List.replicate 32 0) 32 =
      (0, List.replicate 32 0, 0)
    ∧ spec_streaming_digest cexHash SSH_DIGEST_SHA256 cexM (List.replicate 32 0) 1 32 =
      some (0, List.replicate 32 1)
    ∧ List.replicate 32 (1 : Nat) ≠ List.replicate 32 0 := by
  have hX : cexM.length = 2 ^ 32 := by
    unfold cexM
    exact List.length_replicate _ _
  exact ⟨cex_wrap_memory cexM hX, cex_wrap_streaming cexM hX, by decide⟩

/-- C1 (amended): for every supported algorithm, every message shorter
than `2 ^ 32` bytes (below the provider's `ULONG` length wrap) and
every split point, the one-shot `ssh_digest_memory` called with
capacity equal to the digest length returns code 0, leaks nothing,
and leaves the output buffer with exactly the bytes that the spec's
streaming sequence `start` / `update(M[0:k])` / `update(M[k:])` /
`final` produces with the same capacity — for any provider hash
function. -/
theorem claim_C1_chunking_invariance (hash : Int → List Nat → List Nat)
    (alg : Int) (dg : ssh_digest) (h : ssh_digest_by_alg alg = some dg)
    (M d : List Nat) (k : Nat) (hM : M.length < 2 ^ 32) (hk : k ≤ M.length) :
    spec_streaming_digest hash alg M d k dg.digest_len =
      some ((ssh_digest_memory hash alg M d dg.digest_len).1,
        (ssh_digest_memory hash alg M d dg.digest_len).2.1)
    ∧ (ssh_digest_memory hash alg M d dg.digest_len).1 = 0
    ∧ (ssh_digest_memory hash alg M d dg.digest_len).2.2 = 0 := by
  have hle := ssh_digest_by_alg_digest_len_le h
  have hnb : ¬ UINT_MAX < dg.digest_len := by
    unfold UINT_MAX
    omega
  have htk : (M.take k).length < 2 ^ 32 := by
    rw [List.length_take]
    omega
  have hdk : (M.drop k).length < 2 ^ 32 := by
    rw [List.length_drop]
    omega
  have hu0 : ssh_digest_update ⟨alg, dg.cng_alg_name, []⟩ M =
      (0, ⟨alg, dg.cng_alg_name, M⟩) := by
    have := ssh_digest_update_full ⟨alg, dg.cng_alg_name, []⟩ M hM
    simpa using this
  have hu1 : ssh_digest_update ⟨alg, dg.cng_alg_name, []⟩ (M.take k) =
      (0, ⟨alg, dg.cng_alg_name, M.take k⟩) := by
    have := ssh_digest_update_full ⟨alg, dg.cng_alg_name, []⟩ (M.take k) htk
    simpa using this
  have hu2 : ssh_digest_update ⟨alg, dg.cng_alg_name, M.take k⟩ (M.drop k) =
      (0, ⟨alg, dg.cng_alg_name, M⟩) := by
    have := ssh_digest_update_full ⟨alg, dg.cng_alg_name, M.take k⟩ (M.drop k) hdk
    simpa [List.take_append_drop] using this
  have hmem : ssh_digest_memory hash alg M d dg.digest_len =
      (0, truncPad dg.digest_len (hash alg M) ++ d.drop dg.digest_len, 0) := by
    unfold ssh_digest_memory
    rw [h, ssh_digest_start_of_by_alg h]
    simp [hu0, ssh_digest_final, bcryptFinishWrite, hnb, h]
  have hstr : spec_streaming_digest hash alg M d k dg.digest_len =
      some (0, truncPad dg.digest_len (hash alg M) ++ d.drop dg.digest_len) := by
    unfold spec_streaming_digest
    rw [ssh_digest_start_of_by_alg h]
    simp [hu1, hu2, ssh_digest_final, bcryptFinishWrite, hnb, h]
  rw [hmem, hstr]
  exact ⟨rfl, rfl, rfl⟩

theorem claim_C1_chunking_invariance_witness :
    spec_streaming_digest (fun _ m => m) SSH_DIGEST_SHA256 [1, 2, 3]
        (List.replicate 40 9) 1 (digestsAt 3).digest_len =
      some ((ssh_digest_memory (fun _ m => m) SSH_DIGEST_SHA256 [1, 2, 3]
          (List.replicate 40 9) (digestsAt 3).digest_len).1,
        (ssh_digest_memory (fun _ m => m) SSH_DIGEST_SHA256 [1, 2, 3]
          (List.replicate 40 9) (digestsAt 3).digest_len).2.1)
    ∧ (ssh_digest_memory (fun _ m => m) SSH_DIGEST_SHA256 [1, 2, 3]
        (List.replicate 40 9) (digestsAt 3).digest_len).1 = 0
    ∧ (ssh_digest_memory (fun _ m => m) SSH_DIGEST_SHA256 [1, 2, 3]
        (List.replicate 40 9) (digestsAt 3).digest_len).2.2 = 0 :=
  claim_C1_chunking_invariance (fun _ m => m) SSH_DIGEST_SHA256 (digestsAt 3)
    (by decide) [1, 2, 3] (List.replicate 40 9) 1 (by decide) (by decide)

end CngDigest
